import Mathlib

/-!
Shallow embedding of the metric acquisition and parsing engine of the
roger exporter (packages `pkg/roger`: dnsmasq.go, netdev.go, netstat.go).

Go machine integers (`uint64`) are modelled as `Nat` with explicit
`% 2^64` where overflow can occur; fallible Go paths return a `POut`
value whose `panic` constructor models a Go runtime panic (failed type
assertion, out-of-range index or slice expression).
-/

namespace Roger

/-- Outcome of a Go computation that may return a typed error or panic. -/
inductive POut (ε α : Type) where
  | ok (a : α) : POut ε α
  | err (e : ε) : POut ε α
  | panic : POut ε α
deriving DecidableEq, Repr

/-- Uninhabited error type for Go functions whose embedded fragment cannot
return an error (the only error paths are outside the embedding, e.g.
opening the file). -/
inductive NoErr where
deriving DecidableEq, Repr

instance : DecidableEq NoErr := fun a => nomatch a

/-- Modulus of Go's `uint64` arithmetic. -/
def U64 : Nat := 2 ^ 64

/-! ### Go standard library fragments used by the readers -/

/-- Digit value of a character, as in Go `strconv`: `0`-`9`, then
`a`-`z` / `A`-`Z` for values 10-35. -/
def digitVal (c : Char) : Option Nat :=
  if '0' ≤ c ∧ c ≤ '9' then some (c.toNat - '0'.toNat)
  else if 'a' ≤ c ∧ c ≤ 'z' then some (c.toNat - 'a'.toNat + 10)
  else if 'A' ≤ c ∧ c ≤ 'Z' then some (c.toNat - 'A'.toNat + 10)
  else none

/-- Accumulator loop of Go `strconv.ParseUint(s, base, 64)`: any
non-digit (including sign and underscore, rejected when an explicit base
is given) or a value exceeding `2^64 - 1` is an error. -/
def parseUintCore (base : Nat) : List Char → Nat → Option Nat
  | [], acc => some acc
  | c :: cs, acc =>
    match digitVal c with
    | none => none
    | some d =>
      if d < base then
        if acc * base + d ≤ U64 - 1 then parseUintCore base cs (acc * base + d)
        else none
      else none

/-- Go `strconv.ParseUint(s, base, 64)`: empty input is an error. -/
def parseUint (base : Nat) (s : String) : Option Nat :=
  if s.data = [] then none else parseUintCore base s.data 0

/-- Go `unicode.IsSpace` on the ASCII range (the characters that occur in
the proc files and DNS payloads). -/
def isSpaceGo (c : Char) : Bool :=
  c = ' ' || c = '\t' || c = '\n' || c = Char.ofNat 11 || c = Char.ofNat 12 || c = '\r'

/-- Splits a character list at every separator character, keeping empty
parts, as Go `strings.Split` with a one-character separator does
(structural recursion so that concrete inputs evaluate). -/
def splitChars (p : Char → Bool) : List Char → List (List Char)
  | [] => [[]]
  | c :: cs =>
    match splitChars p cs with
    | [] => [[]]
    | t :: ts => if p c then [] :: t :: ts else (c :: t) :: ts

/-- String wrapper of `splitChars`. -/
def splitGo (p : Char → Bool) (s : String) : List String :=
  (splitChars p s.data).map (fun cs => ⟨cs⟩)

/-- Go `strings.Fields`: split around runs of whitespace, dropping empty
fields. -/
def fields (s : String) : List String :=
  ((splitChars isSpaceGo s.data).filter (fun cs => !cs.isEmpty)).map (fun cs => ⟨cs⟩)

/-- Go `strings.Split(s, " ")`: split at every single space, keeping
empty fields. -/
def splitSpace (s : String) : List String :=
  splitGo (fun c => c = ' ') s

/-- Go `strings.Split(s, "|")`. -/
def splitPipe (s : String) : List String :=
  splitGo (fun c => c = '|') s

/-- Go `strings.TrimRight(s, cut)` for a one-character cut set. -/
def trimRight (s : String) (c : Char) : String :=
  ⟨(s.data.reverse.dropWhile (fun x => x = c)).reverse⟩

/-- Go `strings.ToLower` (ASCII case mapping, which covers the header
names of the proc files). -/
def toLower (s : String) : String :=
  ⟨s.data.map Char.toLower⟩

/-- Go `prometheus.BuildFQName`: joins the non-empty components with
`_`; an empty metric name yields the empty string. -/
def buildFQName (namespaceStr subsystem name : String) : String :=
  if name = "" then ""
  else if namespaceStr ≠ "" ∧ subsystem ≠ "" then
    namespaceStr ++ "_" ++ subsystem ++ "_" ++ name
  else if namespaceStr ≠ "" then namespaceStr ++ "_" ++ name
  else if subsystem ≠ "" then subsystem ++ "_" ++ name
  else name

/-! ### Go map fragment

Go maps are modelled as insertion-ordered association lists: `insertM`
replaces the value in place when the key is present and appends
otherwise; iteration order of the model is insertion order. -/

/-- Lookup in the map model (Go `m[k]` with `ok` flag). -/
def lookupM {α : Type} : List (String × α) → String → Option α
  | [], _ => none
  | (k', v) :: rest, k => if k' = k then some v else lookupM rest k

/-- Insert in the map model (Go `m[k] = v`). -/
def insertM {α : Type} : List (String × α) → String → α → List (String × α)
  | [], k, v => [(k, v)]
  | (k', v') :: rest, k, v =>
    if k' = k then (k, v) :: rest else (k', v') :: insertM rest k v

/-! ### dnsmasq reader (pkg/roger/dnsmasq.go)

The DNS exchange itself is external I/O; the embedding starts from the
response message `res` handed back by `client.Exchange`. -/

/-- A DNS question (`miekg/dns.Question`); `Qtype` 16 is TXT and
`Qclass` 3 is CHAOS. -/
structure Question where
  Name : String
  Qtype : Nat
  Qclass : Nat
deriving DecidableEq, Repr

/-- A DNS resource record as seen by the reader: either a TXT record
with its list of strings, or any other concrete record type (the
`answer.(*dns.TXT)` type assertion panics on those). -/
inductive RR where
  | txt (strings : List String) : RR
  | other : RR
deriving DecidableEq, Repr

/-- The parts of `miekg/dns.Msg` the reader inspects. -/
structure Msg where
  Question : List Roger.Question
  Answer : List RR
deriving DecidableEq, Repr

/-- `question` helper of dnsmasq.go. -/
def question (name : String) : Question :=
  ⟨name, 16, 3⟩

/-- The seven questions `ReadMetrics` sends, in order. -/
def sentQuestions : List Question :=
  [question "cachesize.bind.", question "insertions.bind.",
   question "evictions.bind.", question "misses.bind.",
   question "hits.bind.", question "auth.bind.",
   question "servers.bind."]

/-- Which logical field an `ErrParseAnswer` wrap names. -/
inductive DnsField where
  | cacheSize | cacheInsertions | cacheEvictions | cacheMisses
  | cacheHits | authoritative | servers
deriving DecidableEq, Repr

/-- Error taxonomy of `DnsmasqReader.ReadMetrics` (dnsmasq.go); the
`upstream` transport failure happens before the embedded fragment. -/
inductive DnsErr where
  | numQuestions : DnsErr
  | numAnswers : DnsErr
  | parseAnswer (field : DnsField) : DnsErr
deriving DecidableEq, Repr

structure ServerStats where
  Address : String
  QueriesSent : Nat
  QueryErrors : Nat
deriving DecidableEq, Repr

structure DnsmasqResult where
  CacheSize : Nat
  CacheInsertions : Nat
  CacheEvictions : Nat
  CacheMisses : Nat
  CacheHits : Nat
  Authoritative : Nat
  Servers : List ServerStats
deriving DecidableEq, Repr

/-- `parseIntRecord` (dnsmasq.go): the `answer.(*dns.TXT)` type
assertion panics on a non-TXT record and `txt.Txt[0]` panics on an
empty string list; otherwise the first string is parsed as a base-10
unsigned 64-bit integer. -/
def parseIntRecord (answer : RR) : POut Unit Nat :=
  match answer with
  | RR.other => POut.panic
  | RR.txt [] => POut.panic
  | RR.txt (s :: _) =>
    match parseUint 10 s with
    | none => POut.err ()
    | some v => POut.ok v

/-- Loop body of `parseServersRecord`: each TXT string must split on
single spaces into exactly three fields, the second and third numeric. -/
def parseServersLoop : List String → POut Unit (List ServerStats)
  | [] => POut.ok []
  | s :: rest =>
    match splitSpace s with
    | [a, q, e] =>
      match parseUint 10 q with
      | none => POut.err ()
      | some qv =>
        match parseUint 10 e with
        | none => POut.err ()
        | some ev =>
          match parseServersLoop rest with
          | POut.ok out => POut.ok (⟨a, qv, ev⟩ :: out)
          | POut.err u => POut.err u
          | POut.panic => POut.panic
    | _ => POut.err ()

/-- `parseServersRecord` (dnsmasq.go): type assertion first, then the
loop over the TXT strings. -/
def parseServersRecord (answer : RR) : POut Unit (List ServerStats) :=
  match answer with
  | RR.other => POut.panic
  | RR.txt strs => parseServersLoop strs

/-- Wraps an answer-level parse failure as `ErrParseAnswer` annotated
with the failing field, as the sequence of `if err != nil` blocks in
`ReadMetrics` does. -/
def bindField {α β : Type} (field : DnsField) (r : POut Unit α)
    (k : α → POut DnsErr β) : POut DnsErr β :=
  match r with
  | POut.ok a => k a
  | POut.err _ => POut.err (DnsErr.parseAnswer field)
  | POut.panic => POut.panic

/-- `DnsmasqReader.ReadMetrics` (dnsmasq.go) from the response message
onwards: question-count check, answer-count check, then positional
parsing of the seven answers. The wildcard branch is unreachable: both
count checks force exactly seven answers, which is what makes the
indexing `res.Answer[0]`..`res.Answer[6]` safe. -/
def DnsmasqReader.ReadMetrics (res : Msg) : POut DnsErr DnsmasqResult :=
  if res.Question.length ≠ sentQuestions.length then POut.err DnsErr.numQuestions
  else if res.Answer.length ≠ res.Question.length then POut.err DnsErr.numAnswers
  else
    match res.Answer with
    | [a0, a1, a2, a3, a4, a5, a6] =>
      bindField DnsField.cacheSize (parseIntRecord a0) fun cacheSize =>
      bindField DnsField.cacheInsertions (parseIntRecord a1) fun cacheInsertions =>
      bindField DnsField.cacheEvictions (parseIntRecord a2) fun cacheEvictions =>
      bindField DnsField.cacheMisses (parseIntRecord a3) fun cacheMisses =>
      bindField DnsField.cacheHits (parseIntRecord a4) fun cacheHits =>
      bindField DnsField.authoritative (parseIntRecord a5) fun authoritative =>
      bindField DnsField.servers (parseServersRecord a6) fun servers =>
      POut.ok ⟨cacheSize, cacheInsertions, cacheEvictions, cacheMisses,
               cacheHits, authoritative, servers⟩
    | _ => POut.panic

/-! ### /proc/net/dev reader (pkg/roger/netdev.go)

The file contents replace the `os.Open`/`bufio.Scanner` I/O: the source
is given as its list of lines. -/

/-- Error of `ProcNetDevReader.ReadMetrics` within the embedded
fragment: the header line does not split into three pipe-delimited
parts. -/
inductive NetDevErr where
  | formatErr : NetDevErr
deriving DecidableEq, Repr

structure NetInterfaceResults where
  InterfaceName : String
  MetricValues : List (String × Nat)
deriving DecidableEq, Repr

/-- `ProcNetDevReader.appendNetDevValues` (netdev.go): loops `i` over
the headers, so `values[i]` panics once the values run out; a value
that fails base-10 parsing is skipped (`continue`), the rest of the
line is still processed. -/
def appendNetDevValues : List (String × Nat) → List String → List String →
    String → POut NetDevErr (List (String × Nat))
  | metrics, [], _, _ => POut.ok metrics
  | _, _ :: _, [], _ => POut.panic
  | metrics, h :: hs, v :: vs, subsystem =>
    let name := buildFQName "roger" subsystem (toLower h)
    match parseUint 10 v with
    | none => appendNetDevValues metrics hs vs subsystem
    | some val => appendNetDevValues (insertM metrics name val) hs vs subsystem

/-- One interface line of `ProcNetDevReader.ReadMetrics`: `parts[0]`
panics on a line with no fields, and the slice expression
`parts[1 : len(rxHeaders)+1]` panics when the line has fewer than
`1 + len(rxHeaders)` fields. -/
def netDevLine (rxHeaders txHeaders : List String) (line : String) :
    POut NetDevErr NetInterfaceResults :=
  let parts := fields line
  match parts with
  | [] => POut.panic
  | p0 :: restVals =>
    let iface := trimRight p0 ':'
    if restVals.length < rxHeaders.length then POut.panic
    else
      let rxVals := restVals.take rxHeaders.length
      let txVals := restVals.drop rxHeaders.length
      match appendNetDevValues [] rxHeaders rxVals "net_rx" with
      | POut.ok m1 =>
        match appendNetDevValues m1 txHeaders txVals "net_tx" with
        | POut.ok m2 => POut.ok ⟨iface, m2⟩
        | POut.err e => POut.err e
        | POut.panic => POut.panic
      | POut.err e => POut.err e
      | POut.panic => POut.panic

/-- The scan loop of `ProcNetDevReader.ReadMetrics` over the interface
lines. -/
def netDevLines (rxHeaders txHeaders : List String) :
    List String → POut NetDevErr (List NetInterfaceResults)
  | [] => POut.ok []
  | l :: ls =>
    match netDevLine rxHeaders txHeaders l with
    | POut.ok r =>
      match netDevLines rxHeaders txHeaders ls with
      | POut.ok rs => POut.ok (r :: rs)
      | POut.err e => POut.err e
      | POut.panic => POut.panic
    | POut.err e => POut.err e
    | POut.panic => POut.panic

/-- `ProcNetDevReader.ReadMetrics` (netdev.go): line 1 is skipped, line
2 must split on `|` into exactly three segments whose second and third
are the receive and transmit header fields; every further line is an
interface line. A missing line scans as the empty string, as
`bufio.Scanner.Text` returns after a failed `Scan`. -/
def ProcNetDevReader.ReadMetrics (lines : List String) :
    POut NetDevErr (List NetInterfaceResults) :=
  let headerLine := (lines.get? 1).getD ""
  match splitPipe headerLine with
  | [_, rxPart, txPart] =>
    netDevLines (fields rxPart) (fields txPart) (lines.drop 2)
  | _ => POut.err NetDevErr.formatErr

/-! ### /proc/net/stat reader (pkg/roger/netstat.go) -/

/-- The reserved header name of netstat.go. -/
def entriesHeader : String := "entries"

/-- Prometheus value kinds used by the readers. -/
inductive PromType where
  | counter | gauge
deriving DecidableEq, Repr

structure ValueDesc where
  name : String
  val : Nat
  promType : PromType
deriving DecidableEq, Repr

structure NetStatResults where
  Values : List ValueDesc
deriving DecidableEq, Repr

/-- `ProcNetStatReader.parseConnTrackValues` (netstat.go): loops `i`
over the headers, so `values[i]` panics when the row is shorter than
the header line; a value that fails base-16 parsing is skipped; a name
not yet in the map is inserted with kind Gauge for the reserved
"entries" header and Counter otherwise; an already-present name is
summed (with `uint64` wraparound) unless the header is "entries", in
which case the stored value is re-stored unchanged. -/
def ProcNetStatReader.parseConnTrackValues (subsystem : String) :
    List (String × ValueDesc) → List String → List String →
    POut NoErr (List (String × ValueDesc))
  | parsed, [], _ => POut.ok parsed
  | _, _ :: _, [] => POut.panic
  | parsed, h :: hs, v :: vs =>
    let header := toLower h
    let name := buildFQName "roger" subsystem header
    match parseUint 16 v with
    | none => ProcNetStatReader.parseConnTrackValues subsystem parsed hs vs
    | some val =>
      match lookupM parsed name with
      | none =>
        let promType := if header = entriesHeader then PromType.gauge
                        else PromType.counter
        ProcNetStatReader.parseConnTrackValues subsystem
          (insertM parsed name ⟨name, val, promType⟩) hs vs
      | some existing =>
        if header ≠ entriesHeader then
          ProcNetStatReader.parseConnTrackValues subsystem
            (insertM parsed name
              ⟨existing.name, (existing.val + val) % U64, existing.promType⟩) hs vs
        else
          ProcNetStatReader.parseConnTrackValues subsystem
            (insertM parsed name existing) hs vs

/-- The scan loop of `ProcNetStatReader.ReadMetrics` over the CPU
rows. -/
def netStatRows (subsystem : String) (headers : List String) :
    List (String × ValueDesc) → List String →
    POut NoErr (List (String × ValueDesc))
  | parsed, [] => POut.ok parsed
  | parsed, r :: rs =>
    match ProcNetStatReader.parseConnTrackValues subsystem parsed headers (fields r) with
    | POut.ok parsed' => netStatRows subsystem headers parsed' rs
    | POut.err e => POut.err e
    | POut.panic => POut.panic

/-- `ProcNetStatReader.ReadMetrics` (netstat.go): the first line is the
header row; every further line is one CPU's row; the result lists the
aggregated values (iteration order of the map model is insertion
order). -/
def ProcNetStatReader.ReadMetrics (subsystem : String) (lines : List String) :
    POut NoErr NetStatResults :=
  let headers := fields ((lines.get? 0).getD "")
  match netStatRows subsystem headers [] (lines.drop 1) with
  | POut.ok parsed => POut.ok ⟨parsed.map (fun p => p.2)⟩
  | POut.err e => POut.err e
  | POut.panic => POut.panic

/-! ### Collect and the per-reader descriptor cache

`prometheus.NewDesc` allocates a fresh descriptor object on every call;
descriptor identity (pointer identity in Go) is modelled by stamping
each created descriptor with a counter drawn from the cache state, so
two creations with identical arguments are still distinguishable. -/

/-- A `prometheus.Desc` plus an allocation stamp standing for its
identity. -/
structure Desc where
  id : Nat
  fqName : String
  help : String
  variableLabels : List String
deriving DecidableEq, Repr

/-- A metric emitted by `prometheus.MustNewConstMetric` (the value is
kept as the `uint64` handed to the `float64` conversion). -/
structure Metric where
  desc : Desc
  valueType : PromType
  value : Nat
  labelValues : List String
deriving DecidableEq, Repr

/-- The mutable state of a reader: its `descriptions` map together with
the allocation counter that models pointer freshness. -/
structure DescCache where
  descriptions : List (String × Desc)
  nextId : Nat
deriving DecidableEq, Repr

/-- The lookup-or-create-then-emit step shared by both Collect loops:
`desc, ok := p.descriptions[name]; if !ok { desc = prometheus.NewDesc(...);
p.descriptions[name] = desc }; ch <- MustNewConstMetric(desc, ...)`. -/
def emitOne (help : String) (varLabels : List String) (s : DescCache)
    (name : String) (pt : PromType) (val : Nat) (lvs : List String) :
    DescCache × Metric :=
  match lookupM s.descriptions name with
  | some d => (s, ⟨d, pt, val, lvs⟩)
  | none =>
    let d : Desc := ⟨s.nextId, name, help, varLabels⟩
    (⟨insertM s.descriptions name d, s.nextId + 1⟩, ⟨d, pt, val, lvs⟩)

/-- The Collect loop over the (name, kind, value, label values)
observations of one read. -/
def emitAll (help : String) (varLabels : List String) :
    DescCache → List (String × PromType × Nat × List String) →
    DescCache × List Metric
  | s, [] => (s, [])
  | s, (n, pt, v, lvs) :: rest =>
    let step := emitOne help varLabels s n pt v lvs
    let tail := emitAll help varLabels step.1 rest
    (tail.1, step.2 :: tail.2)

/-- The observations of one `ProcNetDevReader.Collect` cycle: every
value of every interface, as a Counter labelled by the interface
name. -/
def netDevTriples (res : List NetInterfaceResults) :
    List (String × PromType × Nat × List String) :=
  res.flatMap (fun r =>
    r.MetricValues.map (fun kv => (kv.1, PromType.counter, kv.2, [r.InterfaceName])))

/-- `ProcNetDevReader.Collect` (netdev.go): a failed read logs and
emits nothing, leaving the cache untouched; a successful read emits one
Counter per (name, interface) pair, creating descriptors on first
observation. -/
def ProcNetDevReader.Collect (path : String) (s : DescCache)
    (lines : List String) : POut NoErr (DescCache × List Metric) :=
  match ProcNetDevReader.ReadMetrics lines with
  | POut.err _ => POut.ok (s, [])
  | POut.panic => POut.panic
  | POut.ok res =>
    POut.ok (emitAll ("generated from " ++ path) ["interface"] s (netDevTriples res))

/-- `ProcNetStatReader.Collect` (netstat.go): as for net/dev but with no
variable labels and the per-value kind from the read result. -/
def ProcNetStatReader.Collect (path : String) (subsystem : String)
    (s : DescCache) (lines : List String) :
    POut NoErr (DescCache × List Metric) :=
  match ProcNetStatReader.ReadMetrics subsystem lines with
  | POut.err e => nomatch e
  | POut.panic => POut.panic
  | POut.ok res =>
    POut.ok (emitAll ("generated from " ++ path) [] s
      (res.Values.map (fun v => (v.name, v.promType, v.val, []))))

/-! ### Statement-side helpers (defined from the source functions) -/

/-- Decides whether one TXT string of the servers answer is a
well-formed `<address> <queries_sent> <query_errors>` triple, the shape
`parseServersRecord` accepts. -/
def wellFormedTriple (s : String) : Bool :=
  match splitSpace s with
  | [_, q, e] => (parseUint 10 q).isSome && (parseUint 10 e).isSome
  | _ => false

/-- The `ServerStats` entry a well-formed triple string denotes. -/
def serverOfStr (s : String) : ServerStats :=
  match splitSpace s with
  | [a, q, e] => ⟨a, (parseUint 10 q).getD 0, (parseUint 10 e).getD 0⟩
  | _ => ⟨"", 0, 0⟩

/-- The metric name `appendNetDevValues` builds for one header. -/
def netDevName (subsystem h : String) : String :=
  buildFQName "roger" subsystem (toLower h)

/-- The metric names of one net/dev interface line, receive headers
then transmit headers. -/
def rxTxNames (rxHeaders txHeaders : List String) : List String :=
  rxHeaders.map (netDevName "net_rx") ++ txHeaders.map (netDevName "net_tx")

/-- The numeric values of a list of tokens that parse in the given
base. -/
def parsedVals (base : Nat) (vs : List String) : List Nat :=
  vs.map (fun v => (parseUint base v).getD 0)

/-- The result `ProcNetDevReader.ReadMetrics` is expected to produce
for one fully numeric interface line. -/
def expectedNetDevRow (rxHeaders txHeaders : List String) (line : String) :
    NetInterfaceResults :=
  ⟨trimRight (((fields line).get? 0).getD "") ':',
   (rxTxNames rxHeaders txHeaders).zip (parsedVals 10 ((fields line).drop 1))⟩

/-- A descriptor cache is well-formed when every cached descriptor is
stored under its own metric name; the empty cache a fresh reader starts
from is well-formed and `emitOne` preserves this. -/
def WFCache (s : DescCache) : Prop :=
  ∀ k d, lookupM s.descriptions k = some d → d.fqName = k

/-- The possible outcomes of one `ProcNetStatReader.ReadMetrics` call
with Go's map-range nondeterminism made explicit: the final
`for _, v := range parsed` loop (netstat.go) visits the map in an order
the Go runtime randomizes per range, so any permutation of the
aggregated values is a possible `Values` slice. The deterministic
`ProcNetStatReader.ReadMetrics` fixes insertion order and is one of
these outcomes. -/
def ProcNetStatReader.ReadMetricsRel (subsystem : String) (lines : List String)
    (r : POut NoErr NetStatResults) : Prop :=
  match netStatRows subsystem (fields ((lines.get? 0).getD "")) [] (lines.drop 1) with
  | POut.ok parsed =>
    ∃ vs, List.Perm vs (parsed.map (fun p => p.2)) ∧ r = POut.ok ⟨vs⟩
  | POut.err e => r = POut.err e
  | POut.panic => r = POut.panic

/-- Agreement of two net/stat read outcomes up to the order of the
`Values` slice: same error or panic, or success with the same
aggregated values (a permutation of one another). -/
def SameUpToValuesPerm (r1 r2 : POut NoErr NetStatResults) : Prop :=
  match r1, r2 with
  | POut.ok v1, POut.ok v2 => List.Perm v1.Values v2.Values
  | POut.err e1, POut.err e2 => e1 = e2
  | POut.panic, POut.panic => True
  | _, _ => False

/-! ### Lemmas about the Go map model -/

theorem lookupM_insertM_self {α : Type} (m : List (String × α)) (k : String) (v : α) :
    lookupM (insertM m k v) k = some v := by
  induction m with
  | nil => simp [insertM, lookupM]
  | cons p rest ih =>
    by_cases h : p.1 = k
    · simp [insertM, h, lookupM]
    · simp [insertM, h, lookupM, ih]

theorem lookupM_insertM_of_ne {α : Type} (m : List (String × α)) (k k' : String)
    (v : α) (h : k' ≠ k) : lookupM (insertM m k v) k' = lookupM m k' := by
  induction m with
  | nil => simp [insertM, lookupM, Ne.symm h]
  | cons p rest ih =>
    by_cases hp : p.1 = k
    · simp [insertM, hp, lookupM, Ne.symm h]
    · simp [insertM, hp, lookupM, ih]

theorem insertM_of_lookupM_none {α : Type} (m : List (String × α)) (k : String)
    (v : α) (h : lookupM m k = none) : insertM m k v = m ++ [(k, v)] := by
  induction m with
  | nil => simp [insertM]
  | cons p rest ih =>
    by_cases hp : p.1 = k
    · simp [lookupM, hp] at h
    · simp [lookupM, hp] at h
      simp [insertM, hp, ih h]

theorem insertM_of_lookupM_self {α : Type} (m : List (String × α)) (k : String)
    (v : α) (h : lookupM m k = some v) : insertM m k v = m := by
  induction m with
  | nil => simp [lookupM] at h
  | cons p rest ih =>
    by_cases hp : p.1 = k
    · simp [lookupM, hp] at h
      cases p with
      | mk k0 v0 =>
        simp at hp
        simp [insertM, hp, h]
        simp at h
        simp [hp, h]
    · simp [lookupM, hp] at h
      simp [insertM, hp, ih h]

theorem lookupM_append_of_none {α : Type} (m m' : List (String × α)) (k : String)
    (h : lookupM m k = none) : lookupM (m ++ m') k = lookupM m' k := by
  induction m with
  | nil => simp
  | cons p rest ih =>
    by_cases hp : p.1 = k
    · simp [lookupM, hp] at h
    · simp [lookupM, hp] at h ⊢
      exact ih h

theorem lookupM_eq_none_of_not_mem {α : Type} (m : List (String × α)) (k : String)
    (h : k ∉ m.map Prod.fst) : lookupM m k = none := by
  induction m with
  | nil => rfl
  | cons p rest ih =>
    rw [List.map_cons, List.mem_cons] at h
    push_neg at h
    simp [lookupM, ih h.2, Ne.symm h.1]

/-! ### Lemmas about the dnsmasq answer parsers -/

theorem parseServersLoop_ok (strs : List String)
    (h : ∀ s ∈ strs, wellFormedTriple s = true) :
    parseServersLoop strs = POut.ok (strs.map serverOfStr) := by
  induction strs with
  | nil => rfl
  | cons s rest ih =>
    have hs := h s (List.mem_cons_self s rest)
    have hrest := ih (fun t ht => h t (List.mem_cons_of_mem s ht))
    rcases hsp : splitSpace s with _ | ⟨a, _ | ⟨q, _ | ⟨e, _ | ⟨x, tail⟩⟩⟩⟩ <;>
      simp [wellFormedTriple, hsp] at hs
    obtain ⟨qv, hq⟩ := Option.isSome_iff_exists.mp hs.1
    obtain ⟨ev, he⟩ := Option.isSome_iff_exists.mp hs.2
    simp [parseServersLoop, hsp, hq, he, hrest, serverOfStr]

theorem parseServersLoop_cons_err (s : String) (rest : List String)
    (h : wellFormedTriple s = false) :
    parseServersLoop (s :: rest) = POut.err () := by
  rcases hsp : splitSpace s with _ | ⟨a, t1⟩
  · simp [parseServersLoop, hsp]
  rcases t1 with _ | ⟨q, t2⟩
  · simp [parseServersLoop, hsp]
  rcases t2 with _ | ⟨e, t3⟩
  · simp [parseServersLoop, hsp]
  rcases t3 with _ | ⟨x, t4⟩
  · rcases hq : parseUint 10 q with _ | qv
    · simp [parseServersLoop, hsp, hq]
    rcases he : parseUint 10 e with _ | ev
    · simp [parseServersLoop, hsp, hq, he]
    · exfalso
      have hgood : wellFormedTriple s = true := by
        simp [wellFormedTriple, hsp, hq, he]
      rw [h] at hgood
      cases hgood
  · simp [parseServersLoop, hsp]

theorem parseServersLoop_err (strs : List String)
    (h : ∃ s ∈ strs, wellFormedTriple s = false) :
    parseServersLoop strs = POut.err () := by
  induction strs with
  | nil => simp at h
  | cons s rest ih =>
    rcases h with ⟨t, ht, hbad⟩
    rcases List.mem_cons.mp ht with rfl | htail
    · exact parseServersLoop_cons_err _ _ hbad
    · by_cases hws : wellFormedTriple s = true
      · rcases hsp : splitSpace s with _ | ⟨a, _ | ⟨q, _ | ⟨e, _ | ⟨x, tail⟩⟩⟩⟩ <;>
          simp [wellFormedTriple, hsp] at hws
        obtain ⟨qv, hq⟩ := Option.isSome_iff_exists.mp hws.1
        obtain ⟨ev, he⟩ := Option.isSome_iff_exists.mp hws.2
        have hrest := ih ⟨t, htail, hbad⟩
        simp [parseServersLoop, hsp, hq, he, hrest]
      · exact parseServersLoop_cons_err _ _ (by simpa using hws)

theorem sentQuestions_length : sentQuestions.length = 7 := rfl

/-- C1: for every response with the seven questions echoed back and
exactly seven answers, where answers 1-6 are TXT records whose first
string is an unsigned decimal integer and answer 7 is a TXT record all
of whose strings are well-formed `<address> <queries_sent>
<query_errors>` triples, `DnsmasqReader.ReadMetrics` returns a
`DnsmasqResult` whose six scalar fields are the decimal values of
answers 1-6 in order and whose `Servers` list has exactly one
`ServerStats` per triple string of answer 7, in order, with the
triple's three fields. -/
theorem dnsmasq_read_wellformed (res : Msg)
    (s0 s1 s2 s3 s4 s5 : String) (r0 r1 r2 r3 r4 r5 : List String)
    (strs : List String) (v0 v1 v2 v3 v4 v5 : Nat)
    (hq : res.Question.length = 7)
    (ha : res.Answer = [RR.txt (s0 :: r0), RR.txt (s1 :: r1), RR.txt (s2 :: r2),
      RR.txt (s3 :: r3), RR.txt (s4 :: r4), RR.txt (s5 :: r5), RR.txt strs])
    (h0 : parseUint 10 s0 = some v0) (h1 : parseUint 10 s1 = some v1)
    (h2 : parseUint 10 s2 = some v2) (h3 : parseUint 10 s3 = some v3)
    (h4 : parseUint 10 s4 = some v4) (h5 : parseUint 10 s5 = some v5)
    (hs : ∀ s ∈ strs, wellFormedTriple s = true) :
    DnsmasqReader.ReadMetrics res =
      POut.ok ⟨v0, v1, v2, v3, v4, v5, strs.map serverOfStr⟩ := by
  unfold DnsmasqReader.ReadMetrics
  rw [if_neg (by rw [hq, sentQuestions_length]; simp),
      if_neg (by rw [ha, hq]; simp), ha]
  simp [parseIntRecord, bindField, h0, h1, h2, h3, h4, h5,
        parseServersRecord, parseServersLoop_ok strs hs]

theorem dnsmasq_read_wellformed_witness :
    DnsmasqReader.ReadMetrics ⟨sentQuestions,
      [RR.txt ["10"], RR.txt ["20"], RR.txt ["30"], RR.txt ["40"],
       RR.txt ["50"], RR.txt ["60"],
       RR.txt ["1.2.3.4#53 7 1", "5.6.7.8#53 9 2"]]⟩ =
    POut.ok ⟨10, 20, 30, 40, 50, 60,
      ["1.2.3.4#53 7 1", "5.6.7.8#53 9 2"].map serverOfStr⟩ :=
  dnsmasq_read_wellformed _ "10" "20" "30" "40" "50" "60" [] [] [] [] [] []
    ["1.2.3.4#53 7 1", "5.6.7.8#53 9 2"] 10 20 30 40 50 60 rfl rfl
    (by decide) (by decide) (by decide) (by decide) (by decide) (by decide)
    (by decide)

/-- C3: `DnsmasqReader.ReadMetrics` fails with the question-count error
whenever the echoed question count differs from the seven questions
sent, and with the answer-count error whenever the answer count differs
from the question count; the error result is a bare error and carries
no `DnsmasqResult`. -/
theorem dnsmasq_count_mismatch (res : Msg) :
    (res.Question.length ≠ 7 →
      DnsmasqReader.ReadMetrics res = POut.err DnsErr.numQuestions) ∧
    (res.Question.length = 7 → res.Answer.length ≠ 7 →
      DnsmasqReader.ReadMetrics res = POut.err DnsErr.numAnswers) := by
  constructor
  · intro h
    unfold DnsmasqReader.ReadMetrics
    rw [if_pos (by rw [sentQuestions_length]; exact h)]
  · intro hq ha
    unfold DnsmasqReader.ReadMetrics
    rw [if_neg (by rw [hq, sentQuestions_length]; simp),
        if_pos (by rw [hq]; exact ha)]

theorem dnsmasq_count_mismatch_witness :
    DnsmasqReader.ReadMetrics ⟨[question "cachesize.bind."], []⟩ =
      POut.err DnsErr.numQuestions ∧
    DnsmasqReader.ReadMetrics ⟨sentQuestions, [RR.txt ["1"]]⟩ =
      POut.err DnsErr.numAnswers :=
  ⟨(dnsmasq_count_mismatch ⟨[question "cachesize.bind."], []⟩).1 (by decide),
   (dnsmasq_count_mismatch ⟨sentQuestions, [RR.txt ["1"]]⟩).2 rfl (by decide)⟩

/-- C4: a response whose seventh answer contains at least one malformed
entry (wrong space-split field count, or a non-numeric count field)
fails the whole read with the answer-parse error for the servers field
and yields no server list, even when the six scalar answers are all
well-formed. -/
theorem dnsmasq_bad_server_entry (res : Msg)
    (s0 s1 s2 s3 s4 s5 : String) (r0 r1 r2 r3 r4 r5 : List String)
    (strs : List String) (v0 v1 v2 v3 v4 v5 : Nat) (bad : String)
    (hq : res.Question.length = 7)
    (ha : res.Answer = [RR.txt (s0 :: r0), RR.txt (s1 :: r1), RR.txt (s2 :: r2),
      RR.txt (s3 :: r3), RR.txt (s4 :: r4), RR.txt (s5 :: r5), RR.txt strs])
    (h0 : parseUint 10 s0 = some v0) (h1 : parseUint 10 s1 = some v1)
    (h2 : parseUint 10 s2 = some v2) (h3 : parseUint 10 s3 = some v3)
    (h4 : parseUint 10 s4 = some v4) (h5 : parseUint 10 s5 = some v5)
    (hmem : bad ∈ strs) (hbad : wellFormedTriple bad = false) :
    DnsmasqReader.ReadMetrics res =
      POut.err (DnsErr.parseAnswer DnsField.servers) := by
  unfold DnsmasqReader.ReadMetrics
  rw [if_neg (by rw [hq, sentQuestions_length]; simp),
      if_neg (by rw [ha, hq]; simp), ha]
  simp [parseIntRecord, bindField, h0, h1, h2, h3, h4, h5,
        parseServersRecord, parseServersLoop_err strs ⟨bad, hmem, hbad⟩]

theorem dnsmasq_bad_server_entry_witness :
    DnsmasqReader.ReadMetrics ⟨sentQuestions,
      [RR.txt ["10"], RR.txt ["20"], RR.txt ["30"], RR.txt ["40"],
       RR.txt ["50"], RR.txt ["60"],
       RR.txt ["1.2.3.4#53 7 1", "5.6.7.8#53 x 2"]]⟩ =
    POut.err (DnsErr.parseAnswer DnsField.servers) :=
  dnsmasq_bad_server_entry _ "10" "20" "30" "40" "50" "60" [] [] [] [] [] []
    ["1.2.3.4#53 7 1", "5.6.7.8#53 x 2"] 10 20 30 40 50 60 "5.6.7.8#53 x 2"
    rfl rfl (by decide) (by decide) (by decide) (by decide) (by decide)
    (by decide) (by decide) (by decide)

/-- C9: the answer parsers are not total over arbitrary answer records:
a non-TXT record panics in the `answer.(*dns.TXT)` type assertion of
`parseIntRecord` and `parseServersRecord`, and a TXT record with an
empty string list panics in `txt.Txt[0]` of `parseIntRecord`; a
response that passes both count checks but carries such a first answer
makes `ReadMetrics` panic instead of returning the answer-parse
error. -/
theorem dnsmasq_answer_parsing_panics :
    parseIntRecord RR.other = POut.panic ∧
    parseIntRecord (RR.txt []) = POut.panic ∧
    parseServersRecord RR.other = POut.panic ∧
    (∀ (res : Msg) (a0 a1 a2 a3 a4 a5 a6 : RR),
      res.Question.length = 7 →
      res.Answer = [a0, a1, a2, a3, a4, a5, a6] →
      (a0 = RR.other ∨ a0 = RR.txt []) →
      DnsmasqReader.ReadMetrics res = POut.panic) := by
  refine ⟨rfl, rfl, rfl, ?_⟩
  intro res a0 a1 a2 a3 a4 a5 a6 hq ha h0
  unfold DnsmasqReader.ReadMetrics
  rw [if_neg (by rw [hq, sentQuestions_length]; simp),
      if_neg (by rw [ha, hq]; simp), ha]
  rcases h0 with rfl | rfl <;> simp [parseIntRecord, bindField]

theorem dnsmasq_answer_parsing_panics_witness :
    DnsmasqReader.ReadMetrics ⟨sentQuestions,
      [RR.other, RR.txt ["2"], RR.txt ["3"], RR.txt ["4"], RR.txt ["5"],
       RR.txt ["6"], RR.txt []]⟩ = POut.panic :=
  dnsmasq_answer_parsing_panics.2.2.2 _ RR.other (RR.txt ["2"]) (RR.txt ["3"])
    (RR.txt ["4"]) (RR.txt ["5"]) (RR.txt ["6"]) (RR.txt []) rfl rfl
    (Or.inl rfl)

/-! ### Lemmas about the net/dev reader -/

theorem appendNetDevValues_ok (subsystem : String) :
    ∀ (hs vs : List String) (m : List (String × Nat)),
    hs.length = vs.length →
    (∀ v ∈ vs, (parseUint 10 v).isSome) →
    (hs.map (netDevName subsystem)).Nodup →
    (∀ n ∈ hs.map (netDevName subsystem), lookupM m n = none) →
    appendNetDevValues m hs vs subsystem =
      POut.ok (m ++ (hs.map (netDevName subsystem)).zip (parsedVals 10 vs))
  | [], [], m, _, _, _, _ => by simp [appendNetDevValues, parsedVals]
  | [], v :: vs, m, hlen, _, _, _ => by simp at hlen
  | h :: hs, [], m, hlen, _, _, _ => by simp at hlen
  | h :: hs, v :: vs, m, hlen, hnum, hnd, hfresh => by
    obtain ⟨val, hval⟩ := Option.isSome_iff_exists.mp
      (hnum v (List.mem_cons_self v vs))
    have hname : buildFQName "roger" subsystem (toLower h) = netDevName subsystem h := rfl
    have hfreshh : lookupM m (netDevName subsystem h) = none :=
      hfresh _ (by simp)
    have hins : insertM m (netDevName subsystem h) val =
        m ++ [(netDevName subsystem h, val)] :=
      insertM_of_lookupM_none _ _ _ hfreshh
    have hnd' : (hs.map (netDevName subsystem)).Nodup := (List.nodup_cons.mp (by simpa using hnd)).2
    have hnotmem : netDevName subsystem h ∉ hs.map (netDevName subsystem) :=
      (List.nodup_cons.mp (by simpa using hnd)).1
    have hfresh' : ∀ n ∈ hs.map (netDevName subsystem),
        lookupM (m ++ [(netDevName subsystem h, val)]) n = none := by
      intro n hn
      rw [lookupM_append_of_none _ _ _ (hfresh n (by simp [hn]))]
      have hne : netDevName subsystem h ≠ n := fun he => hnotmem (he ▸ hn)
      simp [lookupM, hne]
    have ih := appendNetDevValues_ok subsystem hs vs
      (m ++ [(netDevName subsystem h, val)]) (by simpa using hlen)
      (fun t ht => hnum t (List.mem_cons_of_mem v ht)) hnd' hfresh'
    calc appendNetDevValues m (h :: hs) (v :: vs) subsystem
        = appendNetDevValues (m ++ [(netDevName subsystem h, val)]) hs vs subsystem := by
          simp [appendNetDevValues, hname, hval, hins]
      _ = POut.ok ((m ++ [(netDevName subsystem h, val)]) ++
            (hs.map (netDevName subsystem)).zip (parsedVals 10 vs)) := ih
      _ = POut.ok (m ++ (((h :: hs).map (netDevName subsystem)).zip
            (parsedVals 10 (v :: vs)))) := by
          simp [parsedVals, hval, List.append_assoc]

theorem netDevLine_ok (rxHeaders txHeaders : List String) (line : String)
    (p0 : String) (vals : List String)
    (hf : fields line = p0 :: vals)
    (hlen : vals.length = rxHeaders.length + txHeaders.length)
    (hnum : ∀ v ∈ vals, (parseUint 10 v).isSome)
    (hnd : (rxTxNames rxHeaders txHeaders).Nodup) :
    netDevLine rxHeaders txHeaders line =
      POut.ok (expectedNetDevRow rxHeaders txHeaders line) := by
  have hndrx : (rxHeaders.map (netDevName "net_rx")).Nodup :=
    (List.nodup_append.mp hnd).1
  have hndtx : (txHeaders.map (netDevName "net_tx")).Nodup :=
    (List.nodup_append.mp hnd).2.1
  have hdisj : ∀ n ∈ rxHeaders.map (netDevName "net_rx"),
      n ∉ txHeaders.map (netDevName "net_tx") :=
    fun n hn => (List.nodup_append.mp hnd).2.2 hn
  have htake : (vals.take rxHeaders.length).length = rxHeaders.length := by
    rw [List.length_take]; omega
  have hdrop : (vals.drop rxHeaders.length).length = txHeaders.length := by
    rw [List.length_drop]; omega
  have hrx := appendNetDevValues_ok "net_rx" rxHeaders (vals.take rxHeaders.length)
    [] htake.symm (fun v hv => hnum v (List.mem_of_mem_take hv)) hndrx
    (fun n _ => rfl)
  have hkeys : ((rxHeaders.map (netDevName "net_rx")).zip
      (parsedVals 10 (vals.take rxHeaders.length))).map Prod.fst =
      rxHeaders.map (netDevName "net_rx") := by
    apply List.map_fst_zip
    simp [parsedVals, htake]
    omega
  have htx := appendNetDevValues_ok "net_tx" txHeaders (vals.drop rxHeaders.length)
    ((rxHeaders.map (netDevName "net_rx")).zip
      (parsedVals 10 (vals.take rxHeaders.length)))
    hdrop.symm (fun v hv => hnum v (List.mem_of_mem_drop hv)) hndtx
    (fun n hn => by
      apply lookupM_eq_none_of_not_mem
      rw [hkeys]
      intro hmem
      exact hdisj n hmem hn)
  have hnotlt : ¬ vals.length < rxHeaders.length := by omega
  have hsplitv : parsedVals 10 vals =
      parsedVals 10 (vals.take rxHeaders.length) ++
      parsedVals 10 (vals.drop rxHeaders.length) := by
    unfold parsedVals
    rw [← List.map_append, List.take_append_drop]
  have hzip : ((rxHeaders.map (netDevName "net_rx")).zip
        (parsedVals 10 (vals.take rxHeaders.length))) ++
      ((txHeaders.map (netDevName "net_tx")).zip
        (parsedVals 10 (vals.drop rxHeaders.length))) =
      (rxTxNames rxHeaders txHeaders).zip (parsedVals 10 vals) := by
    rw [rxTxNames, hsplitv, List.zip_append (by simp [parsedVals, htake]; omega)]
  rw [List.nil_append] at hrx
  unfold netDevLine
  rw [hf]
  simp only [if_neg hnotlt, hrx, htx]
  simp [expectedNetDevRow, hf, hzip]

theorem netDevLines_ok (rxHeaders txHeaders : List String)
    (hnd : (rxTxNames rxHeaders txHeaders).Nodup) :
    ∀ (ls : List String),
    (∀ l ∈ ls, ∃ p0 vals, fields l = p0 :: vals ∧
      vals.length = rxHeaders.length + txHeaders.length ∧
      ∀ v ∈ vals, (parseUint 10 v).isSome) →
    netDevLines rxHeaders txHeaders ls =
      POut.ok (ls.map (expectedNetDevRow rxHeaders txHeaders))
  | [], _ => rfl
  | l :: ls, h => by
    obtain ⟨p0, vals, hf, hlen, hnum⟩ := h l (List.mem_cons_self l ls)
    have hline := netDevLine_ok rxHeaders txHeaders l p0 vals hf hlen hnum hnd
    have hrest := netDevLines_ok rxHeaders txHeaders hnd ls
      (fun t ht => h t (List.mem_cons_of_mem l ht))
    simp [netDevLines, hline, hrest]

/-- C5: for a well-formed net/dev input — a skipped first line, a
three-segment pipe-delimited header line, and interface lines carrying
exactly `len(rx)+len(tx)` numeric value tokens — `ReadMetrics` returns,
per interface line, the interface name (first token, trailing colon
stripped) and a map that reproduces exactly the input values under the
names `roger_net_rx_<lowercased rx header>` and `roger_net_tx_<lowercased
tx header>`, in header order. -/
theorem netdev_roundtrip (l0 hline : String) (dataLines : List String)
    (lbl rxPart txPart : String)
    (hsplit : splitPipe hline = [lbl, rxPart, txPart])
    (hnd : (rxTxNames (fields rxPart) (fields txPart)).Nodup)
    (hrows : ∀ l ∈ dataLines, ∃ p0 vals, fields l = p0 :: vals ∧
      vals.length = (fields rxPart).length + (fields txPart).length ∧
      ∀ v ∈ vals, (parseUint 10 v).isSome) :
    ProcNetDevReader.ReadMetrics (l0 :: hline :: dataLines) =
      POut.ok (dataLines.map (expectedNetDevRow (fields rxPart) (fields txPart))) := by
  unfold ProcNetDevReader.ReadMetrics
  simp only [List.get?_cons_succ, List.get?_cons_zero, Option.getD_some,
    List.drop_succ_cons, List.drop_zero]
  rw [hsplit]
  exact netDevLines_ok _ _ hnd dataLines hrows

theorem netdev_roundtrip_witness :
    ProcNetDevReader.ReadMetrics
      ["Inter-|   Receive |  Transmit",
       "face |bytes Packets|bytes packets",
       "eth0: 11 22 33 44",
       "lo: 5 6 7 8"] =
    POut.ok
      (["eth0: 11 22 33 44", "lo: 5 6 7 8"].map
        (expectedNetDevRow ["bytes", "Packets"] ["bytes", "packets"])) :=
  netdev_roundtrip "Inter-|   Receive |  Transmit"
    "face |bytes Packets|bytes packets" ["eth0: 11 22 33 44", "lo: 5 6 7 8"]
    "face " "bytes Packets" "bytes packets" (by decide) (by decide)
    (fun l hl => by
      rcases List.mem_cons.mp hl with rfl | hl2
      · exact ⟨"eth0:", ["11", "22", "33", "44"], by decide, by decide, by decide⟩
      · rcases List.mem_cons.mp hl2 with rfl | hl3
        · exact ⟨"lo:", ["5", "6", "7", "8"], by decide, by decide, by decide⟩
        · cases hl3)

theorem appendNetDevValues_ne_err :
    ∀ (m : List (String × Nat)) (hs vs : List String) (subsystem : String)
      (e : NetDevErr), appendNetDevValues m hs vs subsystem ≠ POut.err e
  | m, [], vs, subsystem, e => by simp [appendNetDevValues]
  | m, h :: hs, [], subsystem, e => by simp [appendNetDevValues]
  | m, h :: hs, v :: vs, subsystem, e => by
    unfold appendNetDevValues
    rcases hp : parseUint 10 v with _ | val
    · simpa [hp] using appendNetDevValues_ne_err m hs vs subsystem e
    · simpa [hp] using appendNetDevValues_ne_err
        (insertM m (buildFQName "roger" subsystem (toLower h)) val) hs vs subsystem e

theorem netDevLine_ne_err (rxHeaders txHeaders : List String) (line : String)
    (e : NetDevErr) : netDevLine rxHeaders txHeaders line ≠ POut.err e := by
  unfold netDevLine
  rcases hf : fields line with _ | ⟨p0, restVals⟩
  · simp
  by_cases hlt : restVals.length < rxHeaders.length
  · simp [hlt]
  rcases hrx : appendNetDevValues [] rxHeaders (restVals.take rxHeaders.length) "net_rx"
    with m1 | e1 | _
  · rcases htx : appendNetDevValues m1 txHeaders (restVals.drop rxHeaders.length) "net_tx"
      with m2 | e2 | _
    · simp [hlt, hrx, htx]
    · exact absurd htx (appendNetDevValues_ne_err _ _ _ _ e2)
    · simp [hlt, hrx, htx]
  · exact absurd hrx (appendNetDevValues_ne_err _ _ _ _ e1)
  · simp [hlt, hrx]

theorem netDevLines_panic (rxHeaders txHeaders : List String) :
    ∀ (ls : List String),
    (∃ l ∈ ls, netDevLine rxHeaders txHeaders l = POut.panic) →
    netDevLines rxHeaders txHeaders ls = POut.panic
  | [], h => by simp at h
  | l :: ls, h => by
    rcases h with ⟨t, ht, hpan⟩
    rcases List.mem_cons.mp ht with rfl | htail
    · simp [netDevLines, hpan]
    · rcases hr : netDevLine rxHeaders txHeaders l with r | e | _
      · simp [netDevLines, hr,
          netDevLines_panic rxHeaders txHeaders ls ⟨t, htail, hpan⟩]
      · exact absurd hr (netDevLine_ne_err _ _ _ e)
      · simp [netDevLines, hr]

theorem parseConnTrackValues_short :
    ∀ (subsystem : String) (m : List (String × ValueDesc)) (hs vs : List String),
    vs.length < hs.length →
    ProcNetStatReader.parseConnTrackValues subsystem m hs vs = POut.panic
  | subsystem, m, [], vs, h => absurd h (by simp)
  | subsystem, m, h :: hs, [], _ => rfl
  | subsystem, m, h :: hs, v :: vs, hlt => by
    have hlt' : vs.length < hs.length := by simpa using hlt
    unfold ProcNetStatReader.parseConnTrackValues
    rcases hp : parseUint 16 v with _ | val
    · simpa [hp] using parseConnTrackValues_short subsystem m hs vs hlt'
    · rcases hl : lookupM m (buildFQName "roger" subsystem (toLower h)) with _ | existing
      · simpa [hp, hl] using parseConnTrackValues_short subsystem _ hs vs hlt'
      · by_cases hh : toLower h ≠ entriesHeader
        · simpa [hp, hl, hh] using parseConnTrackValues_short subsystem _ hs vs hlt'
        · simpa [hp, hl, hh] using parseConnTrackValues_short subsystem _ hs vs hlt'

theorem netStatRows_short (subsystem : String) (headers : List String)
    (row : String) (hshort : (fields row).length < headers.length) :
    ∀ (rows : List String) (m : List (String × ValueDesc)),
    row ∈ rows → netStatRows subsystem headers m rows = POut.panic
  | [], m, h => by simp at h
  | r :: rs, m, h => by
    rcases List.mem_cons.mp h with rfl | htail
    · simp [netStatRows, parseConnTrackValues_short subsystem m headers (fields row) hshort]
    · rcases hr : ProcNetStatReader.parseConnTrackValues subsystem m headers (fields r)
        with m' | e | _
      · simp [netStatRows, hr, netStatRows_short subsystem headers row hshort rs m' htail]
      · exact nomatch e
      · simp [netStatRows, hr]

/-- C10: both proc-file readers assume every data row has at least as
many value tokens as headers: a net/dev interface line with fewer than
`1 + len(rx headers)` whitespace-separated tokens (including an empty
line) panics in `parts[0]` or the `parts[1:len(rx)+1]` slice instead of
producing an error, and a net/stat CPU row with fewer tokens than
headers panics in `values[i]`; in both cases the panic propagates out
of `ReadMetrics`. -/
theorem proc_short_row_panics :
    (∀ (rxHeaders txHeaders : List String) (line : String),
      (fields line).length < rxHeaders.length + 1 →
      netDevLine rxHeaders txHeaders line = POut.panic) ∧
    (∀ (l0 hline lbl rxPart txPart line : String) (dataLines : List String),
      splitPipe hline = [lbl, rxPart, txPart] →
      line ∈ dataLines →
      (fields line).length < (fields rxPart).length + 1 →
      ProcNetDevReader.ReadMetrics (l0 :: hline :: dataLines) = POut.panic) ∧
    (∀ (subsystem : String) (m : List (String × ValueDesc)) (hs vs : List String),
      vs.length < hs.length →
      ProcNetStatReader.parseConnTrackValues subsystem m hs vs = POut.panic) ∧
    (∀ (subsystem hline row : String) (rows : List String),
      row ∈ rows →
      (fields row).length < (fields hline).length →
      ProcNetStatReader.ReadMetrics subsystem (hline :: rows) = POut.panic) := by
  have hline_panic : ∀ (rxHeaders txHeaders : List String) (line : String),
      (fields line).length < rxHeaders.length + 1 →
      netDevLine rxHeaders txHeaders line = POut.panic := by
    intro rxHeaders txHeaders line hshort
    unfold netDevLine
    rcases hf : fields line with _ | ⟨p0, restVals⟩
    · simp
    · rw [hf] at hshort
      have : restVals.length < rxHeaders.length := by simpa using hshort
      simp [this]
  refine ⟨hline_panic, ?_, parseConnTrackValues_short, ?_⟩
  · intro l0 hline lbl rxPart txPart line dataLines hsplit hmem hshort
    unfold ProcNetDevReader.ReadMetrics
    simp only [List.get?_cons_succ, List.get?_cons_zero, Option.getD_some,
      List.drop_succ_cons, List.drop_zero]
    rw [hsplit]
    exact netDevLines_panic _ _ dataLines
      ⟨line, hmem, hline_panic _ _ line hshort⟩
  · intro subsystem hline row rows hmem hshort
    unfold ProcNetStatReader.ReadMetrics
    simp only [List.get?_cons_zero, Option.getD_some, List.drop_succ_cons,
      List.drop_zero]
    rw [netStatRows_short subsystem (fields hline) row hshort rows [] hmem]

theorem proc_short_row_panics_witness :
    netDevLine ["bytes"] ["bytes"] "" = POut.panic ∧
    ProcNetDevReader.ReadMetrics
      ["h", "x|bytes|bytes", "eth0:", "lo: 1 2"] = POut.panic ∧
    ProcNetStatReader.parseConnTrackValues "arp_cache" [] ["entries", "allocs"] ["2a"] =
      POut.panic ∧
    ProcNetStatReader.ReadMetrics "arp_cache" ["entries allocs", "2a"] = POut.panic :=
  ⟨proc_short_row_panics.1 ["bytes"] ["bytes"] "" (by decide),
   proc_short_row_panics.2.1 "h" "x|bytes|bytes" "x" "bytes" "bytes" "eth0:"
     ["eth0:", "lo: 1 2"] (by decide) (by decide) (by decide),
   proc_short_row_panics.2.2.1 "arp_cache" [] ["entries", "allocs"] ["2a"] (by decide),
   proc_short_row_panics.2.2.2 "arp_cache" "entries allocs" "2a" ["2a"]
     (by decide) (by decide)⟩

theorem appendNetDevValues_skip :
    ∀ (subsystem : String) (m : List (String × Nat)) (h1 h2 v1 v2 : List String)
      (hb vb : String),
    h1.length = v1.length → parseUint 10 vb = none →
    appendNetDevValues m (h1 ++ hb :: h2) (v1 ++ vb :: v2) subsystem =
      appendNetDevValues m (h1 ++ h2) (v1 ++ v2) subsystem
  | subsystem, m, [], h2, [], v2, hb, vb, _, hpb => by
    simp [appendNetDevValues, hpb]
  | subsystem, m, [], h2, v :: v1, v2, hb, vb, hlen, hpb => by simp at hlen
  | subsystem, m, h :: h1, h2, [], v2, hb, vb, hlen, hpb => by simp at hlen
  | subsystem, m, h :: h1, h2, v :: v1, v2, hb, vb, hlen, hpb => by
    have hlen' : h1.length = v1.length := by simpa using hlen
    show appendNetDevValues m (h :: (h1 ++ hb :: h2)) (v :: (v1 ++ vb :: v2)) subsystem =
      appendNetDevValues m (h :: (h1 ++ h2)) (v :: (v1 ++ v2)) subsystem
    unfold appendNetDevValues
    rcases hp : parseUint 10 v with _ | val
    · simpa [hp] using appendNetDevValues_skip subsystem m h1 h2 v1 v2 hb vb hlen' hpb
    · simpa [hp] using appendNetDevValues_skip subsystem
        (insertM m (buildFQName "roger" subsystem (toLower h)) val)
        h1 h2 v1 v2 hb vb hlen' hpb

theorem parseConnTrackValues_skip :
    ∀ (subsystem : String) (m : List (String × ValueDesc))
      (h1 h2 v1 v2 : List String) (hb vb : String),
    h1.length = v1.length → parseUint 16 vb = none →
    ProcNetStatReader.parseConnTrackValues subsystem m (h1 ++ hb :: h2) (v1 ++ vb :: v2) =
      ProcNetStatReader.parseConnTrackValues subsystem m (h1 ++ h2) (v1 ++ v2)
  | subsystem, m, [], h2, [], v2, hb, vb, _, hpb => by
    simp [ProcNetStatReader.parseConnTrackValues, hpb]
  | subsystem, m, [], h2, v :: v1, v2, hb, vb, hlen, hpb => by simp at hlen
  | subsystem, m, h :: h1, h2, [], v2, hb, vb, hlen, hpb => by simp at hlen
  | subsystem, m, h :: h1, h2, v :: v1, v2, hb, vb, hlen, hpb => by
    have hlen' : h1.length = v1.length := by simpa using hlen
    show ProcNetStatReader.parseConnTrackValues subsystem m
        (h :: (h1 ++ hb :: h2)) (v :: (v1 ++ vb :: v2)) =
      ProcNetStatReader.parseConnTrackValues subsystem m
        (h :: (h1 ++ h2)) (v :: (v1 ++ v2))
    unfold ProcNetStatReader.parseConnTrackValues
    rcases hp : parseUint 16 v with _ | val
    · simpa [hp] using parseConnTrackValues_skip subsystem m h1 h2 v1 v2 hb vb hlen' hpb
    · rcases hl : lookupM m (buildFQName "roger" subsystem (toLower h)) with _ | existing
      · simpa [hp, hl] using parseConnTrackValues_skip subsystem _ h1 h2 v1 v2 hb vb hlen' hpb
      · by_cases hh : toLower h ≠ entriesHeader
        · simpa [hp, hl, hh] using
            parseConnTrackValues_skip subsystem _ h1 h2 v1 v2 hb vb hlen' hpb
        · simpa [hp, hl, hh] using
            parseConnTrackValues_skip subsystem _ h1 h2 v1 v2 hb vb hlen' hpb

/-- C6: in both proc-file readers a single value token that fails
numeric parsing (base 10 for net/dev, base 16 for net/stat) is a soft
failure: the row parses exactly as if that one (header, value) pair
were absent, every other pair of the same line is kept, and — as the
concrete reads show — the read as a whole still succeeds with the other
lines intact. -/
theorem proc_soft_field_failure :
    (∀ (subsystem : String) (m : List (String × Nat)) (h1 h2 v1 v2 : List String)
       (hb vb : String),
      h1.length = v1.length → parseUint 10 vb = none →
      appendNetDevValues m (h1 ++ hb :: h2) (v1 ++ vb :: v2) subsystem =
        appendNetDevValues m (h1 ++ h2) (v1 ++ v2) subsystem) ∧
    (∀ (subsystem : String) (m : List (String × ValueDesc))
       (h1 h2 v1 v2 : List String) (hb vb : String),
      h1.length = v1.length → parseUint 16 vb = none →
      ProcNetStatReader.parseConnTrackValues subsystem m (h1 ++ hb :: h2) (v1 ++ vb :: v2) =
        ProcNetStatReader.parseConnTrackValues subsystem m (h1 ++ h2) (v1 ++ v2)) ∧
    ProcNetDevReader.ReadMetrics ["h", "x|a b|c", "eth0: 1 bad 3"] =
      POut.ok [⟨"eth0", [("roger_net_rx_a", 1), ("roger_net_tx_c", 3)]⟩] ∧
    ProcNetStatReader.ReadMetrics "x" ["entries hits", "2a zz", "2a 5"] =
      POut.ok ⟨[⟨"roger_x_entries", 42, PromType.gauge⟩,
                ⟨"roger_x_hits", 5, PromType.counter⟩]⟩ :=
  ⟨appendNetDevValues_skip, parseConnTrackValues_skip, by decide, by decide⟩

theorem proc_soft_field_failure_witness :
    appendNetDevValues [] (["a"] ++ "b" :: ["c"]) (["1"] ++ "bad" :: ["3"]) "net_rx" =
      appendNetDevValues [] (["a"] ++ ["c"]) (["1"] ++ ["3"]) "net_rx" ∧
    ProcNetStatReader.parseConnTrackValues "x" []
        (["entries"] ++ "hits" :: ["drops"]) (["2a"] ++ "zz" :: ["5"]) =
      ProcNetStatReader.parseConnTrackValues "x" []
        (["entries"] ++ ["drops"]) (["2a"] ++ ["5"]) :=
  ⟨proc_soft_field_failure.1 "net_rx" [] ["a"] ["c"] ["1"] ["3"] "b" "bad"
     (by decide) (by decide),
   proc_soft_field_failure.2.1 "x" [] ["entries"] ["drops"] ["2a"] ["5"] "hits" "zz"
     (by decide) (by decide)⟩

/-- C2 (amended): in `ProcNetStatReader`'s aggregation over CPU rows, a
header equal to the reserved name "entries" is classified as Gauge and,
when the name was already seen on a previous row, the previously stored
value is retained (the first row's value wins; the later row's value is
neither summed nor stored), so two rows both reporting 42 yield 42 (not
84); every other header is classified as Counter and its values are
summed (with `uint64` wraparound) across CPU rows keyed by metric name,
so rows reporting 3 and 5 yield 8. Values are parsed base-16 and names
are namespace + subsystem + lower-cased header. -/
theorem netstat_entries_aggregation (subsystem hline row1 row2 : String)
    (he hc s1e s1c s2e s2c : String) (v1e v1c v2e v2c : Nat)
    (hh : fields hline = [he, hc])
    (hr1 : fields row1 = [s1e, s1c])
    (hr2 : fields row2 = [s2e, s2c])
    (hel : toLower he = entriesHeader)
    (hcl : toLower hc ≠ entriesHeader)
    (hne : buildFQName "roger" subsystem (toLower he) ≠
           buildFQName "roger" subsystem (toLower hc))
    (p1e : parseUint 16 s1e = some v1e) (p1c : parseUint 16 s1c = some v1c)
    (p2e : parseUint 16 s2e = some v2e) (p2c : parseUint 16 s2c = some v2c) :
    ProcNetStatReader.ReadMetrics subsystem [hline, row1, row2] =
      POut.ok ⟨[⟨buildFQName "roger" subsystem (toLower he), v1e, PromType.gauge⟩,
                ⟨buildFQName "roger" subsystem (toLower hc),
                 (v1c + v2c) % U64, PromType.counter⟩]⟩ := by
  unfold ProcNetStatReader.ReadMetrics
  simp only [List.get?_cons_zero, Option.getD_some, List.drop_succ_cons,
    List.drop_zero]
  rw [hh]
  rw [hel] at hne
  simp [netStatRows, ProcNetStatReader.parseConnTrackValues, hr1, hr2,
        p1e, p1c, p2e, p2c, hel, hcl, hne, lookupM, insertM]

theorem netstat_entries_aggregation_witness :
    ProcNetStatReader.ReadMetrics "arp_cache" ["entries other", "2a 3", "32 5"] =
      POut.ok ⟨[⟨buildFQName "roger" "arp_cache" (toLower "entries"), 42,
                 PromType.gauge⟩,
                ⟨buildFQName "roger" "arp_cache" (toLower "other"),
                 (3 + 5) % U64, PromType.counter⟩]⟩ :=
  netstat_entries_aggregation "arp_cache" "entries other" "2a 3" "32 5"
    "entries" "other" "2a" "3" "32" "5" 42 3 50 5
    (by decide) (by decide) (by decide) (by decide) (by decide) (by decide)
    (by decide) (by decide) (by decide) (by decide)

/-- C2 (counterexample to the claim as stated): with two CPU rows whose
"entries" column reports 0x2a = 42 and then 0x32 = 50, the aggregated
value is 42 — the first row's value is retained, not overwritten by the
later row as the claim's "its value is overwritten" says (which would
give 50). -/
theorem netstat_entries_not_overwritten :
    ProcNetStatReader.ReadMetrics "x" ["entries", "2a", "32"] =
      POut.ok ⟨[⟨"roger_x_entries", 42, PromType.gauge⟩]⟩ ∧
    ProcNetStatReader.ReadMetrics "x" ["entries", "2a", "32"] ≠
      POut.ok ⟨[⟨"roger_x_entries", 50, PromType.gauge⟩]⟩ :=
  ⟨by decide, by decide⟩

/-! ### Lemmas about the Collect loops and the descriptor cache -/

theorem emitAll_cons (help : String) (varLabels : List String) (s : DescCache)
    (n : String) (pt : PromType) (v : Nat) (lvs : List String)
    (rest : List (String × PromType × Nat × List String)) :
    emitAll help varLabels s ((n, pt, v, lvs) :: rest) =
      ((emitAll help varLabels (emitOne help varLabels s n pt v lvs).1 rest).1,
       (emitOne help varLabels s n pt v lvs).2 ::
         (emitAll help varLabels (emitOne help varLabels s n pt v lvs).1 rest).2) :=
  rfl

theorem WFCache_insert (s : DescCache) (n : String) (d : Desc)
    (hwf : WFCache s) (hd : d.fqName = n) :
    WFCache ⟨insertM s.descriptions n d, s.nextId + 1⟩ := by
  intro k d' hk
  by_cases hkn : k = n
  · subst hkn
    rw [lookupM_insertM_self] at hk
    cases hk
    exact hd
  · rw [lookupM_insertM_of_ne _ _ _ _ hkn] at hk
    exact hwf k d' hk

theorem emitAll_mono (help : String) (varLabels : List String) :
    ∀ (ts : List (String × PromType × Nat × List String)) (s : DescCache)
      (n : String) (d : Desc),
    lookupM s.descriptions n = some d →
    lookupM (emitAll help varLabels s ts).1.descriptions n = some d
  | [], s, n, d, h => h
  | (n0, pt, v, lvs) :: rest, s, n, d, h => by
    rw [emitAll_cons]
    rcases hl : lookupM s.descriptions n0 with _ | d0
    · have hne : n ≠ n0 := fun he => by rw [he, hl] at h; cases h
      have h' : lookupM (insertM s.descriptions n0 ⟨s.nextId, n0, help, varLabels⟩) n =
          some d := by
        rw [lookupM_insertM_of_ne _ _ _ _ hne]; exact h
      simpa [emitOne, hl] using emitAll_mono help varLabels rest
        ⟨insertM s.descriptions n0 ⟨s.nextId, n0, help, varLabels⟩, s.nextId + 1⟩ n d h'
    · simpa [emitOne, hl] using emitAll_mono help varLabels rest s n d h

theorem emitAll_wf (help : String) (varLabels : List String) :
    ∀ (ts : List (String × PromType × Nat × List String)) (s : DescCache),
    WFCache s → WFCache (emitAll help varLabels s ts).1
  | [], s, hwf => hwf
  | (n0, pt, v, lvs) :: rest, s, hwf => by
    rw [emitAll_cons]
    rcases hl : lookupM s.descriptions n0 with _ | d0
    · simpa [emitOne, hl] using emitAll_wf help varLabels rest
        ⟨insertM s.descriptions n0 ⟨s.nextId, n0, help, varLabels⟩, s.nextId + 1⟩
        (WFCache_insert s n0 ⟨s.nextId, n0, help, varLabels⟩ hwf rfl)
    · simpa [emitOne, hl] using emitAll_wf help varLabels rest s hwf

theorem emitAll_emitted (help : String) (varLabels : List String) :
    ∀ (ts : List (String × PromType × Nat × List String)) (s : DescCache),
    WFCache s →
    ∀ m ∈ (emitAll help varLabels s ts).2,
      lookupM (emitAll help varLabels s ts).1.descriptions m.desc.fqName = some m.desc
  | [], s, _, m, hm => by simp [emitAll] at hm
  | (n0, pt, v, lvs) :: rest, s, hwf, m, hm => by
    rw [emitAll_cons] at hm ⊢
    rcases hl : lookupM s.descriptions n0 with _ | d0
    · set d : Desc := ⟨s.nextId, n0, help, varLabels⟩ with hd
      set s1 : DescCache :=
        ⟨insertM s.descriptions n0 d, s.nextId + 1⟩ with hs1
      have hstep : emitOne help varLabels s n0 pt v lvs = (s1, ⟨d, pt, v, lvs⟩) := by
        simp [emitOne, hl, hd, hs1]
      rw [hstep] at hm ⊢
      have hwf1 : WFCache s1 := WFCache_insert s n0 d hwf rfl
      rcases List.mem_cons.mp hm with rfl | htail
      · have hbase : lookupM s1.descriptions n0 = some d := by
          simp [hs1, lookupM_insertM_self]
        simpa using emitAll_mono help varLabels rest s1 n0 d hbase
      · exact emitAll_emitted help varLabels rest s1 hwf1 m htail
    · have hstep : emitOne help varLabels s n0 pt v lvs = (s, ⟨d0, pt, v, lvs⟩) := by
        simp [emitOne, hl]
      rw [hstep] at hm ⊢
      rcases List.mem_cons.mp hm with rfl | htail
      · have hfq : d0.fqName = n0 := hwf n0 d0 hl
        simpa [hfq] using emitAll_mono help varLabels rest s n0 d0 hl
      · exact emitAll_emitted help varLabels rest s hwf m htail

theorem emitAll_stable (help : String) (varLabels : List String) :
    ∀ (ts : List (String × PromType × Nat × List String)) (s : DescCache)
      (n : String) (d : Desc),
    WFCache s → lookupM s.descriptions n = some d →
    ∀ m ∈ (emitAll help varLabels s ts).2, m.desc.fqName = n → m.desc = d
  | [], s, n, d, _, _, m, hm, _ => by simp [emitAll] at hm
  | (n0, pt, v, lvs) :: rest, s, n, d, hwf, hn, m, hm, hfq => by
    rw [emitAll_cons] at hm
    rcases hl : lookupM s.descriptions n0 with _ | d0
    · set dnew : Desc := ⟨s.nextId, n0, help, varLabels⟩ with hd
      set s1 : DescCache :=
        ⟨insertM s.descriptions n0 dnew, s.nextId + 1⟩ with hs1
      have hstep : emitOne help varLabels s n0 pt v lvs = (s1, ⟨dnew, pt, v, lvs⟩) := by
        simp [emitOne, hl, hd, hs1]
      rw [hstep] at hm
      have hne : n ≠ n0 := fun he => by rw [he, hl] at hn; cases hn
      rcases List.mem_cons.mp hm with rfl | htail
      · exact absurd hfq.symm hne
      · have hwf1 : WFCache s1 := WFCache_insert s n0 dnew hwf rfl
        have hn1 : lookupM s1.descriptions n = some d := by
          rw [hs1]
          simpa [lookupM_insertM_of_ne _ _ _ _ hne] using hn
        exact emitAll_stable help varLabels rest s1 n d hwf1 hn1 m htail hfq
    · have hstep : emitOne help varLabels s n0 pt v lvs = (s, ⟨d0, pt, v, lvs⟩) := by
        simp [emitOne, hl]
      rw [hstep] at hm
      rcases List.mem_cons.mp hm with rfl | htail
      · have hfq0 : d0.fqName = n0 := hwf n0 d0 hl
        have : n0 = n := by rw [← hfq0]; exact hfq
        subst this
        rw [hl] at hn
        cases hn
        rfl
      · exact emitAll_stable help varLabels rest s n d hwf hn m htail hfq

theorem emit_cycles_stability (help : String) (varLabels : List String)
    (ts1 ts2 : List (String × PromType × Nat × List String))
    (s0 s1 s2 : DescCache) (e1 e2 : List Metric)
    (hwf : WFCache s0)
    (h1 : emitAll help varLabels s0 ts1 = (s1, e1))
    (h2 : emitAll help varLabels s1 ts2 = (s2, e2)) :
    (∀ n d, lookupM s0.descriptions n = some d →
      lookupM s1.descriptions n = some d) ∧
    (∀ m1 m2, m1 ∈ e1 → m2 ∈ e2 →
      m1.desc.fqName = m2.desc.fqName → m1.desc = m2.desc) := by
  constructor
  · intro n d hd
    have hm := emitAll_mono help varLabels ts1 s0 n d hd
    rw [h1] at hm
    exact hm
  · intro m1 m2 hm1 hm2 hfq
    have hm1' : m1 ∈ (emitAll help varLabels s0 ts1).2 := by rw [h1]; exact hm1
    have hl1 := emitAll_emitted help varLabels ts1 s0 hwf m1 hm1'
    rw [h1] at hl1
    have hwf1 : WFCache s1 := by
      have hw := emitAll_wf help varLabels ts1 s0 hwf
      rw [h1] at hw
      exact hw
    have hm2' : m2 ∈ (emitAll help varLabels s1 ts2).2 := by rw [h2]; exact hm2
    exact (emitAll_stable help varLabels ts2 s1 m1.desc.fqName m1.desc hwf1 hl1
      m2 hm2' hfq.symm).symm

theorem ReadMetricsRel_of_read (subsystem : String) (lines : List String) :
    ProcNetStatReader.ReadMetricsRel subsystem lines
      (ProcNetStatReader.ReadMetrics subsystem lines) := by
  simp only [ProcNetStatReader.ReadMetricsRel, ProcNetStatReader.ReadMetrics]
  rcases hr : netStatRows subsystem (fields ((lines.get? 0).getD "")) [] (lines.drop 1)
    with parsed | e | _
  · simp only [hr]
    exact ⟨parsed.map (fun p => p.2), List.Perm.refl _, rfl⟩
  · simp only [hr]
  · simp only [hr]

/-- C7 (amended): for every unchanged source, reading twice yields the
same results up to listing order: `ProcNetDevReader.ReadMetrics` is a
pure function of the file contents, so two net/dev reads are
bit-identical; two `ProcNetStatReader.ReadMetrics` reads on identical
contents reach the same aggregated map with no hidden internal state
advancing between the reads, but the `Values` slice is produced by
ranging over that Go map, whose iteration order the runtime randomizes,
so the two results agree only up to a permutation of `Values` (same
values under the same names). -/
theorem proc_read_idempotent_up_to_order :
    (∀ (subsystem : String) (lines : List String)
       (r1 r2 : POut NoErr NetStatResults),
      ProcNetStatReader.ReadMetricsRel subsystem lines r1 →
      ProcNetStatReader.ReadMetricsRel subsystem lines r2 →
      SameUpToValuesPerm r1 r2) ∧
    (∀ (lines : List String) (r1 r2 : POut NetDevErr (List NetInterfaceResults)),
      r1 = ProcNetDevReader.ReadMetrics lines →
      r2 = ProcNetDevReader.ReadMetrics lines → r1 = r2) := by
  constructor
  · intro subsystem lines r1 r2 h1 h2
    unfold ProcNetStatReader.ReadMetricsRel at h1 h2
    rcases hr : netStatRows subsystem (fields ((lines.get? 0).getD "")) [] (lines.drop 1)
      with parsed | e | _
    · rw [hr] at h1 h2
      replace h1 : ∃ vs, List.Perm vs (parsed.map (fun p => p.2)) ∧
          r1 = POut.ok ⟨vs⟩ := h1
      replace h2 : ∃ vs, List.Perm vs (parsed.map (fun p => p.2)) ∧
          r2 = POut.ok ⟨vs⟩ := h2
      obtain ⟨vs1, hp1, rfl⟩ := h1
      obtain ⟨vs2, hp2, rfl⟩ := h2
      exact hp1.trans hp2.symm
    · rw [hr] at h1 h2
      replace h1 : r1 = POut.err e := h1
      replace h2 : r2 = POut.err e := h2
      subst h1; subst h2
      rfl
    · rw [hr] at h1 h2
      replace h1 : r1 = POut.panic := h1
      replace h2 : r2 = POut.panic := h2
      subst h1; subst h2
      trivial
  · intro lines r1 r2 h1 h2
    rw [h1, h2]

theorem proc_read_idempotent_up_to_order_witness :
    SameUpToValuesPerm
      (POut.ok ⟨[⟨"roger_x_entries", 42, PromType.gauge⟩,
                 ⟨"roger_x_hits", 5, PromType.counter⟩]⟩)
      (POut.ok ⟨[⟨"roger_x_hits", 5, PromType.counter⟩,
                 ⟨"roger_x_entries", 42, PromType.gauge⟩]⟩) ∧
    ProcNetDevReader.ReadMetrics ["h", "x|a|b", "eth0: 1 2"] =
      ProcNetDevReader.ReadMetrics ["h", "x|a|b", "eth0: 1 2"] :=
  ⟨proc_read_idempotent_up_to_order.1 "x" ["entries hits", "2a 5"]
     (POut.ok ⟨[⟨"roger_x_entries", 42, PromType.gauge⟩,
                ⟨"roger_x_hits", 5, PromType.counter⟩]⟩)
     (POut.ok ⟨[⟨"roger_x_hits", 5, PromType.counter⟩,
                ⟨"roger_x_entries", 42, PromType.gauge⟩]⟩)
     ⟨[⟨"roger_x_entries", 42, PromType.gauge⟩,
       ⟨"roger_x_hits", 5, PromType.counter⟩], List.Perm.refl _, rfl⟩
     ⟨[⟨"roger_x_hits", 5, PromType.counter⟩,
       ⟨"roger_x_entries", 42, PromType.gauge⟩], List.Perm.swap _ _ _, rfl⟩,
   proc_read_idempotent_up_to_order.2 ["h", "x|a|b", "eth0: 1 2"] _ _ rfl rfl⟩

/-- C7 (counterexample to the claim as stated): the `Values` slice of
`ProcNetStatReader.ReadMetrics` is built by ranging over the parsed Go
map, whose iteration order the runtime randomizes per range, so on the
two-metric content below both orderings are possible outcomes of a
read; two reads of identical contents therefore need not be
bit-identical or in the same result order — the two possible results
shown are distinct. -/
theorem netstat_read_order_nondeterministic :
    ProcNetStatReader.ReadMetricsRel "x" ["entries hits", "2a 5"]
      (POut.ok ⟨[⟨"roger_x_entries", 42, PromType.gauge⟩,
                 ⟨"roger_x_hits", 5, PromType.counter⟩]⟩) ∧
    ProcNetStatReader.ReadMetricsRel "x" ["entries hits", "2a 5"]
      (POut.ok ⟨[⟨"roger_x_hits", 5, PromType.counter⟩,
                 ⟨"roger_x_entries", 42, PromType.gauge⟩]⟩) ∧
    (POut.ok ⟨[⟨"roger_x_entries", 42, PromType.gauge⟩,
               ⟨"roger_x_hits", 5, PromType.counter⟩]⟩ :
        POut NoErr NetStatResults) ≠
      POut.ok ⟨[⟨"roger_x_hits", 5, PromType.counter⟩,
                ⟨"roger_x_entries", 42, PromType.gauge⟩]⟩ :=
  ⟨⟨[⟨"roger_x_entries", 42, PromType.gauge⟩,
     ⟨"roger_x_hits", 5, PromType.counter⟩], List.Perm.refl _, rfl⟩,
   ⟨[⟨"roger_x_hits", 5, PromType.counter⟩,
     ⟨"roger_x_entries", 42, PromType.gauge⟩], List.Perm.swap _ _ _, rfl⟩,
   by decide⟩

/-- C8: the per-instance descriptor cache only grows — an entry present
before a Collect cycle is still present (with the same descriptor)
afterwards — and two collect cycles that both observe a metric name
emit the same descriptor identity for it: the first cycle's descriptor
(with its allocation stamp) is the one the second cycle emits, even
though each cycle performs an independent read. -/
theorem descriptor_cache_stability :
    (∀ (path : String) (s0 : DescCache) (c1 c2 : List String)
       (s1 s2 : DescCache) (e1 e2 : List Metric),
      WFCache s0 →
      ProcNetDevReader.Collect path s0 c1 = POut.ok (s1, e1) →
      ProcNetDevReader.Collect path s1 c2 = POut.ok (s2, e2) →
      (∀ n d, lookupM s0.descriptions n = some d →
        lookupM s1.descriptions n = some d) ∧
      (∀ m1 m2, m1 ∈ e1 → m2 ∈ e2 →
        m1.desc.fqName = m2.desc.fqName → m1.desc = m2.desc)) ∧
    (∀ (path subsystem : String) (s0 : DescCache) (c1 c2 : List String)
       (s1 s2 : DescCache) (e1 e2 : List Metric),
      WFCache s0 →
      ProcNetStatReader.Collect path subsystem s0 c1 = POut.ok (s1, e1) →
      ProcNetStatReader.Collect path subsystem s1 c2 = POut.ok (s2, e2) →
      (∀ n d, lookupM s0.descriptions n = some d →
        lookupM s1.descriptions n = some d) ∧
      (∀ m1 m2, m1 ∈ e1 → m2 ∈ e2 →
        m1.desc.fqName = m2.desc.fqName → m1.desc = m2.desc)) := by
  constructor
  · intro path s0 c1 c2 s1 s2 e1 e2 hwf h1 h2
    unfold ProcNetDevReader.Collect at h1 h2
    rcases hr1 : ProcNetDevReader.ReadMetrics c1 with res1 | er1 | _
    · rw [hr1] at h1
      injection h1 with hp1
      rcases hr2 : ProcNetDevReader.ReadMetrics c2 with res2 | er2 | _
      · rw [hr2] at h2
        injection h2 with hp2
        exact emit_cycles_stability _ _ _ _ s0 s1 s2 e1 e2 hwf hp1 hp2
      · rw [hr2] at h2
        injection h2 with hp2
        injection hp2 with hs2 he2
        refine ⟨(emit_cycles_stability _ _ _ [] s0 s1 s1 e1 [] hwf hp1 rfl).1,
          fun m1 m2 _ hm2 _ => absurd (he2 ▸ hm2) (List.not_mem_nil m2)⟩
      · rw [hr2] at h2
        cases h2
    · rw [hr1] at h1
      injection h1 with hp1
      injection hp1 with hs1 he1
      subst hs1
      refine ⟨fun n d hd => hd, fun m1 m2 hm1 _ _ => absurd (he1 ▸ hm1) (List.not_mem_nil m1)⟩
    · rw [hr1] at h1
      cases h1
  · intro path subsystem s0 c1 c2 s1 s2 e1 e2 hwf h1 h2
    unfold ProcNetStatReader.Collect at h1 h2
    rcases hr1 : ProcNetStatReader.ReadMetrics subsystem c1 with res1 | er1 | _
    · rw [hr1] at h1
      injection h1 with hp1
      rcases hr2 : ProcNetStatReader.ReadMetrics subsystem c2 with res2 | er2 | _
      · rw [hr2] at h2
        injection h2 with hp2
        exact emit_cycles_stability _ _ _ _ s0 s1 s2 e1 e2 hwf hp1 hp2
      · exact nomatch er2
      · rw [hr2] at h2
        cases h2
    · exact nomatch er1
    · rw [hr1] at h1
      cases h1

theorem descriptor_cache_stability_witness :
    (⟨⟨0, "roger_net_rx_a", "generated from p", ["interface"]⟩,
      PromType.counter, 1, ["eth0"]⟩ : Metric).desc =
    (⟨⟨0, "roger_net_rx_a", "generated from p", ["interface"]⟩,
      PromType.counter, 1, ["eth0"]⟩ : Metric).desc ∧
    (⟨⟨0, "roger_x_entries", "generated from p", []⟩,
      PromType.gauge, 42, []⟩ : Metric).desc =
    (⟨⟨0, "roger_x_entries", "generated from p", []⟩,
      PromType.gauge, 42, []⟩ : Metric).desc :=
  ⟨((descriptor_cache_stability.1 "p" ⟨[], 0⟩ ["h", "x|a|b", "eth0: 1 2"]
      ["h", "x|a|b", "eth0: 1 2"]
      ⟨[("roger_net_rx_a", ⟨0, "roger_net_rx_a", "generated from p", ["interface"]⟩),
        ("roger_net_tx_b", ⟨1, "roger_net_tx_b", "generated from p", ["interface"]⟩)], 2⟩
      ⟨[("roger_net_rx_a", ⟨0, "roger_net_rx_a", "generated from p", ["interface"]⟩),
        ("roger_net_tx_b", ⟨1, "roger_net_tx_b", "generated from p", ["interface"]⟩)], 2⟩
      [⟨⟨0, "roger_net_rx_a", "generated from p", ["interface"]⟩,
        PromType.counter, 1, ["eth0"]⟩,
       ⟨⟨1, "roger_net_tx_b", "generated from p", ["interface"]⟩,
        PromType.counter, 2, ["eth0"]⟩]
      [⟨⟨0, "roger_net_rx_a", "generated from p", ["interface"]⟩,
        PromType.counter, 1, ["eth0"]⟩,
       ⟨⟨1, "roger_net_tx_b", "generated from p", ["interface"]⟩,
        PromType.counter, 2, ["eth0"]⟩]
      (fun k d h => by simp [lookupM] at h) (by decide) (by decide)).2
      _ _ (by decide) (by decide) rfl),
   ((descriptor_cache_stability.2 "p" "x" ⟨[], 0⟩ ["entries hits", "2a 3", "2a 5"]
      ["entries hits", "2a 3", "2a 5"]
      ⟨[("roger_x_entries", ⟨0, "roger_x_entries", "generated from p", []⟩),
        ("roger_x_hits", ⟨1, "roger_x_hits", "generated from p", []⟩)], 2⟩
      ⟨[("roger_x_entries", ⟨0, "roger_x_entries", "generated from p", []⟩),
        ("roger_x_hits", ⟨1, "roger_x_hits", "generated from p", []⟩)], 2⟩
      [⟨⟨0, "roger_x_entries", "generated from p", []⟩, PromType.gauge, 42, []⟩,
       ⟨⟨1, "roger_x_hits", "generated from p", []⟩, PromType.counter, 8, []⟩]
      [⟨⟨0, "roger_x_entries", "generated from p", []⟩, PromType.gauge, 42, []⟩,
       ⟨⟨1, "roger_x_hits", "generated from p", []⟩, PromType.counter, 8, []⟩]
      (fun k d h => by simp [lookupM] at h) (by decide) (by decide)).2
      _ _ (by decide) (by decide) rfl)⟩

end Roger
